import Mathlib

/-!
Shallow embedding of the ora-reflector schema-reflection engine
(src/main.py, src/db.py): the catalog scope query, the column query's
projection, the Oracle-to-Rust type mapper, the struct renderer and the
generation orchestrator, together with theorems checking the repository's
specification against these definitions.

Machine-level notes on the embedding:
  - Python strings are Lean `String`s; Python's `str.upper`/`str.lower`
    (character-wise case mapping, which on the ASCII identifiers the Oracle
    catalog yields agrees with `Char.toUpper`/`Char.toLower`) are embedded
    as character-wise maps `pyUpper`/`pyLower`.
  - Python `int` is `Int`; an optional argument defaulting to `None` is an
    `Option Int` argument passed explicitly as `none` where the source
    omits it.
  - A `cursor.execute(...)`/`fetchall()` round trip against the database is
    embedded as a pure function of the catalog contents it queries, and a
    query that can raise `oracledb.Error` as an `Except String` value; an
    uncaught Python exception is the `Except.error` branch propagating
    through the callers.
-/

namespace OraReflector

/-- Character-wise embedding of Python `str.upper` (ASCII case mapping). -/
def pyUpper (s : String) : String :=
  String.mk (s.toList.map Char.toUpper)

/-- Character-wise embedding of Python `str.lower` (ASCII case mapping). -/
def pyLower (s : String) : String :=
  String.mk (s.toList.map Char.toLower)

/-- Embedding of Python `str.capitalize` on a list of characters: the first
character is upper-cased and every remaining character is lower-cased. -/
def pyCapitalize : List Char → List Char
  | [] => []
  | c :: cs => c.toUpper :: cs.map Char.toLower

/-- Embedding of Python `str.split("_")` on a list of characters: maximal
runs between underscores, keeping empty runs, so that `split` of the empty
string is `[""]` and adjacent separators yield empty segments. -/
def splitUnderscore : List Char → List (List Char)
  | [] => [[]]
  | c :: cs =>
    match splitUnderscore cs with
    | [] => [[]]
    | w :: ws => if c = '_' then [] :: w :: ws else (c :: w) :: ws

/-- Does the character list start with the pattern? (helper for LIKE). -/
def startsWithL : List Char → List Char → Bool
  | [], _ => true
  | _ :: _, [] => false
  | p :: ps, c :: cs => p == c && startsWithL ps cs

/-- Substring containment on character lists: the semantics of the SQL
predicate `x LIKE '%pat%'` for a literal pattern without wildcards. -/
def containsSubL (pat : List Char) : List Char → Bool
  | [] => pat.isEmpty
  | c :: cs => startsWithL pat (c :: cs) || containsSubL pat cs

/-- The IGNORED_SCHEMAS list of src/main.py (lines 11-31), verbatim. -/
def IGNORED_SCHEMAS : List String :=
  ["SYS", "SYSTEM", "OUTLN", "DBSNMP", "APPQOSSYS", "CTXSYS", "DVSYS",
   "FLOWS_FILES", "MDSYS", "ORDDATA", "ORDSYS", "XDB", "WMSYS", "PUBLIC",
   "AUDSYS", "GSMADMIN_INTERNAL", "PERFSTAT", "OJVMSYS", "EXP_INFO"]

/-- A row of the catalog view `all_tables` as selected by
USER_SCOPE_FOR_TABLES: `(owner, table_name)`. -/
structure CatalogTable where
  owner : String
  table_name : String
deriving DecidableEq, Repr

/-- The WHERE clause of USER_SCOPE_FOR_TABLES (src/main.py lines 33-37):
`owner not like '%ORACLE%' and owner NOT IN (IGNORED_SCHEMAS)`, with
standard SQL semantics for LIKE (substring match, case-sensitive) and
NOT IN (case-sensitive exact match against the literal list). -/
def in_user_scope (owner : String) : Bool :=
  !(containsSubL "ORACLE".toList owner.toList) && !(IGNORED_SCHEMAS.contains owner)

/-- Embedding of `fetch_tables` (src/main.py lines 40-44): executing
USER_SCOPE_FOR_TABLES against a catalog whose `all_tables` view holds the
given rows returns exactly the rows passing the WHERE clause (the query
imposes no ORDER BY, so the embedding keeps the catalog's row order). -/
def fetch_tables (all_tables : List CatalogTable) : List CatalogTable :=
  all_tables.filter (fun t => in_user_scope t.owner)

/-- A row of the catalog view `all_tab_columns`, carrying the fields the
program or its catalog touches; `data_precision`/`data_scale` exist in the
view but are never selected by the program's column query. -/
structure DbColumn where
  column_name : String
  data_type : String
  nullable : String
  data_precision : Option Int
  data_scale : Option Int
deriving DecidableEq, Repr

/-- A row of the result set of `fetch_columns`'s query, which selects only
`column_name, data_type, nullable` (src/main.py lines 49-57). -/
structure Column where
  column_name : String
  data_type : String
  nullable : String
deriving DecidableEq, Repr

/-- The projection applied by `fetch_columns`'s SELECT list to an
`all_tab_columns` row: precision and scale are dropped. -/
def selectColumn (c : DbColumn) : Column :=
  ⟨c.column_name, c.data_type, c.nullable⟩

/-- The fixed `type_mapping` dictionary of `map_oracle_type_to_rust`
(src/main.py lines 94-101), verbatim. -/
def type_mapping : List (String × String) :=
  [("VARCHAR2", "String"), ("CHAR", "String"),
   ("DATE", "chrono::NaiveDateTime"), ("TIMESTAMP", "chrono::NaiveDateTime"),
   ("CLOB", "String"), ("BLOB", "Vec<u8>")]

/-- Embedding of `map_oracle_type_to_rust` (src/main.py lines 90-112).
The Python signature defaults `precision` and `scale` to `None`; callers of
this embedding pass `none` explicitly where the source omits the argument.
The branch on `precision and precision <= 7` keeps Python's truthiness: a
`None` or `0` precision makes the conjunction falsy, selecting `"f64"`. -/
def map_oracle_type_to_rust (oracle_type : String) (precision scale : Option Int) : String :=
  if pyUpper oracle_type = "NUMBER" then
    if scale = some 0 then
      match precision with
      | none => "i64"
      | some p => if p > 10 then "i64" else "i32"
    else
      match precision with
      | none => "f64"
      | some p => if p ≠ 0 ∧ p ≤ 7 then "f32" else "f64"
  else
    (type_mapping.lookup (pyUpper oracle_type)).getD "String"

/-- The struct-name derivation of `generate_rust_struct` (src/main.py line
63): `"".join(word.capitalize() for word in table_name.lower().split("_"))`. -/
def struct_name (table_name : String) : String :=
  String.mk (((splitUnderscore (table_name.toList.map Char.toLower)).map pyCapitalize).flatten)

/-- The field-name derivation of the renderer loop (src/main.py line 74):
`field_name = column_name.lower()`. -/
def field_name (column_name : String) : String :=
  pyLower column_name

/-- The field-type computation of the renderer loop (src/main.py lines
71-73): the mapper is invoked with the data type only (no precision, no
scale), and the result is wrapped in `Option<...>` exactly when the
nullable flag equals `"Y"`. -/
def rust_field_type (data_type nullable : String) : String :=
  if nullable = "Y" then
    "Option<" ++ map_oracle_type_to_rust data_type none none ++ ">"
  else
    map_oracle_type_to_rust data_type none none

/-- One line appended by the renderer loop for one column (src/main.py
line 75): `    pub {field_name}: {rust_type},`. -/
def fieldDecl (c : Column) : String :=
  "    pub " ++ field_name c.column_name ++ ": " ++ rust_field_type c.data_type c.nullable ++ ","

/-- The `struct_lines` list built by `generate_rust_struct` (src/main.py
lines 64-77): header comment, derive attribute, struct header, one field
line per column in column order, closing brace. -/
def generateRustStructLines (table_owner table_name : String) (columns : List Column) : List String :=
  ["// Table: " ++ table_owner ++ "." ++ table_name,
   "#[derive(Debug, Clone, Serialize, Deserialize, RowValue)]",
   "pub struct " ++ struct_name table_name ++ " \x7b"]
  ++ columns.map fieldDecl
  ++ ["\x7d"]

/-- Embedding of `generate_rust_struct` (src/main.py lines 61-78):
`"\n".join(struct_lines)`. -/
def generate_rust_struct (table_owner table_name : String) (columns : List Column) : String :=
  String.intercalate "\n" (generateRustStructLines table_owner table_name columns)

/-- Embedding of `save_rust_structs` (src/main.py lines 81-87): the content
of the written artifact, `"\n\n".join(rust_structs)` plus a trailing
newline (directory creation and file IO are external collaborators). -/
def save_rust_structs (rust_structs : List String) : String :=
  String.intercalate "\n\n" rust_structs ++ "\n"

/-- The query-execution capability behind the cursor: the rows of
`all_tables`, and per (owner, table_name) the outcome of the
`all_tab_columns` query — `Except.error` embeds a raised `oracledb.Error`. -/
structure Cursor where
  all_tables : List CatalogTable
  all_tab_columns : String → String → Except String (List DbColumn)

/-- Embedding of `fetch_columns` (src/main.py lines 47-58): execute the
column query (which may raise) and return the projected rows. -/
def fetch_columns (cursor : Cursor) (table_owner table_name : String) : Except String (List Column) :=
  (cursor.all_tab_columns table_owner table_name).map (fun rows => rows.map selectColumn)

/-- The table loop of `create_rust_structs` (src/main.py lines 126-138):
for each table in order, fetch its columns and append the rendered struct
to the accumulator; an exception raised by any fetch aborts the loop and
propagates (there is no try/except around the loop body). -/
def processTables (cursor : Cursor) : List CatalogTable → Except String (List String)
  | [] => Except.ok []
  | t :: rest =>
    match fetch_columns cursor t.owner t.table_name with
    | Except.error e => Except.error e
    | Except.ok columns =>
      match processTables cursor rest with
      | Except.error e => Except.error e
      | Except.ok others =>
        Except.ok (generate_rust_struct t.owner t.table_name columns :: others)

/-- Embedding of `create_rust_structs` (src/main.py lines 115-140): fetch
the in-scope tables, run the loop, and only when every table succeeded
write the accumulated structs; the result is the written artifact's
content, or the propagated error with nothing written. -/
def create_rust_structs (cursor : Cursor) : Except String String :=
  match processTables cursor (fetch_tables cursor.all_tables) with
  | Except.error e => Except.error e
  | Except.ok rust_structs => Except.ok (save_rust_structs rust_structs)

/-- Specification-side predicate: a syntactically valid identifier of the
target language (Rust), restricted to its ASCII form: first character an
ASCII letter or underscore, remaining characters ASCII alphanumeric or
underscore, nonempty. -/
def isValidRustIdent (s : String) : Bool :=
  match s.toList with
  | [] => false
  | c :: cs => (c.isAlpha || c == '_') && cs.all (fun d => d.isAlphanum || d == '_')

/-- Specification-side predicate on table names: first character an ASCII
letter, every character ASCII alphanumeric or underscore. -/
def goodTableName (s : String) : Bool :=
  match s.toList with
  | [] => false
  | c :: cs => c.isAlpha && (c :: cs).all (fun d => d.isAlphanum || d == '_')

/-! Helper lemmas. -/

theorem data_mk (l : List Char) : (String.mk l).data = l := rfl

theorem map_number_no_args (dt : String) (h : pyUpper dt = "NUMBER") :
    map_oracle_type_to_rust dt none none = "f64" := by
  simp [map_oracle_type_to_rust, h]

theorem fieldDecl_mem (table_owner table_name : String) (columns : List Column)
    (c : Column) (hc : c ∈ columns) :
    fieldDecl c ∈ generateRustStructLines table_owner table_name columns := by
  have h1 : fieldDecl c ∈ columns.map fieldDecl := List.mem_map_of_mem _ hc
  unfold generateRustStructLines
  exact List.mem_append_left _ (List.mem_append_right _ h1)

theorem lookup_getD_ne_empty (k : String) :
    ((type_mapping.lookup k).getD "String") ≠ "" := by
  simp only [type_mapping, List.lookup]
  repeat' split <;> simp_all

/-- C1: In the spec's end-to-end scenario (owner APP, table ORDERS, columns
ID NUMBER NOT NULL precision 10 scale 0, TOTAL NUMBER NOT NULL precision 12
scale 2, NOTE VARCHAR2 nullable), the claim expects the field `id: i32`.
The pipeline — fetch_columns projecting away precision and scale, then
generate_rust_struct calling the mapper with the data type alone — renders
`pub id: f64,` instead (the struct name, field order, `total: f64` and
`note: Option<String>` do match). This theorem evaluates the pipeline at
the claim's input and records that the id line is not the i32 line. -/
theorem c1_orders_scenario_renders_id_as_f64 :
    generateRustStructLines "APP" "ORDERS"
      (([⟨"ID", "NUMBER", "N", some 10, some 0⟩,
         ⟨"TOTAL", "NUMBER", "N", some 12, some 2⟩,
         ⟨"NOTE", "VARCHAR2", "Y", none, none⟩] : List DbColumn).map selectColumn) =
      ["// Table: APP.ORDERS",
       "#[derive(Debug, Clone, Serialize, Deserialize, RowValue)]",
       "pub struct Orders \x7b",
       "    pub id: f64,",
       "    pub total: f64,",
       "    pub note: Option<String>,",
       "\x7d"]
    ∧ ("    pub id: f64," : String) ≠ "    pub id: i32," := by
  exact ⟨by decide, by decide⟩

/-- C2: every column whose native type is NUMBER in any letter case is
rendered with type f64 — `Option<f64>` when its nullable flag is "Y" — for
any precision and scale the column carries in the catalog, because the
column query projects precision and scale away and the renderer calls the
mapper with the data type only. -/
theorem c2_number_columns_render_as_f64 (table_owner table_name : String)
    (rows : List DbColumn) (d : DbColumn) (hd : d ∈ rows)
    (hnum : pyUpper d.data_type = "NUMBER") :
    (d.nullable = "Y" →
      ("    pub " ++ field_name d.column_name ++ ": Option<f64>,")
        ∈ generateRustStructLines table_owner table_name (rows.map selectColumn))
    ∧ (d.nullable ≠ "Y" →
      ("    pub " ++ field_name d.column_name ++ ": f64,")
        ∈ generateRustStructLines table_owner table_name (rows.map selectColumn)) := by
  have hmem : selectColumn d ∈ rows.map selectColumn := List.mem_map_of_mem _ hd
  have hline := fieldDecl_mem table_owner table_name (rows.map selectColumn) _ hmem
  have hmap : map_oracle_type_to_rust d.data_type none none = "f64" :=
    map_number_no_args _ hnum
  constructor <;> intro hn
  · have he : fieldDecl (selectColumn d) =
        "    pub " ++ field_name d.column_name ++ ": Option<f64>," := by
      apply String.ext
      simp [fieldDecl, selectColumn, rust_field_type, hn, hmap]
    rwa [he] at hline
  · have he : fieldDecl (selectColumn d) =
        "    pub " ++ field_name d.column_name ++ ": f64," := by
      apply String.ext
      simp [fieldDecl, selectColumn, rust_field_type, hn, hmap]
    rwa [he] at hline

/-- C2 witness: in the APP.ORDERS scenario the non-nullable NUMBER column
ID (with precision 10 and scale 0 in the catalog) is rendered `pub id:
f64,`, and a nullable NUMBER column is rendered `pub amount:
Option<f64>,`. -/
theorem c2_witness :
    ("    pub id: f64,")
      ∈ generateRustStructLines "APP" "ORDERS"
        (([⟨"ID", "NUMBER", "N", some 10, some 0⟩] : List DbColumn).map selectColumn)
    ∧ ("    pub amount: Option<f64>,")
      ∈ generateRustStructLines "APP" "PAYMENTS"
        (([⟨"AMOUNT", "number", "Y", some 8, some 3⟩] : List DbColumn).map selectColumn) := by
  constructor
  · exact (c2_number_columns_render_as_f64 "APP" "ORDERS" _
      ⟨"ID", "NUMBER", "N", some 10, some 0⟩ (by decide) (by decide)).2 (by decide)
  · exact (c2_number_columns_render_as_f64 "APP" "PAYMENTS" _
      ⟨"AMOUNT", "number", "Y", some 8, some 3⟩ (by decide) (by decide)).1 (by decide)

/-- C3 counterexample: the claim says a present precision of at most 7
with nonzero scale yields f32, but at precision 0 (present and at most 7)
the mapper returns f64, because Python's `precision and precision <= 7`
treats the integer 0 as falsy. -/
theorem c3_counterexample_precision_zero :
    map_oracle_type_to_rust "NUMBER" (some 0) (some 2) = "f64"
    ∧ map_oracle_type_to_rust "NUMBER" (some 0) (some 2) ≠ "f32" := by
  exact ⟨by decide, by decide⟩

/-- C3 amended: the mapper is case-insensitive on the native type name
(it depends only on the upper-cased name); for the numeric family, with
scale 0 an absent precision or a precision above 10 yields i64 and any
other precision yields i32; with scale not 0, a precision that is present,
nonzero and at most 7 yields f32, and an absent, zero, or larger precision
yields f64. -/
theorem c3_amended_numeric_mapping :
    (∀ (s t : String) (precision scale : Option Int), pyUpper s = pyUpper t →
      map_oracle_type_to_rust s precision scale = map_oracle_type_to_rust t precision scale)
    ∧ (∀ s : String, pyUpper s = "NUMBER" →
        map_oracle_type_to_rust s none (some 0) = "i64"
        ∧ (∀ p : Int, p > 10 → map_oracle_type_to_rust s (some p) (some 0) = "i64")
        ∧ (∀ p : Int, p ≤ 10 → map_oracle_type_to_rust s (some p) (some 0) = "i32"))
    ∧ (∀ (s : String) (scale : Option Int), pyUpper s = "NUMBER" → scale ≠ some 0 →
        (∀ p : Int, p ≠ 0 → p ≤ 7 → map_oracle_type_to_rust s (some p) scale = "f32")
        ∧ (∀ p : Int, p > 7 → map_oracle_type_to_rust s (some p) scale = "f64")
        ∧ map_oracle_type_to_rust s (some 0) scale = "f64"
        ∧ map_oracle_type_to_rust s none scale = "f64") := by
  refine ⟨?_, ?_, ?_⟩
  · intro s t precision scale h
    unfold map_oracle_type_to_rust
    rw [h]
  · intro s h
    refine ⟨by simp [map_oracle_type_to_rust, h], ?_, ?_⟩
    · intro p hp
      simp [map_oracle_type_to_rust, h, hp]
    · intro p hp
      have hng : ¬ (p > 10) := by omega
      simp [map_oracle_type_to_rust, h, hng]
  · intro s scale h hs
    refine ⟨?_, ?_, ?_, ?_⟩
    · intro p hp0 hp7
      simp [map_oracle_type_to_rust, h, hs, hp0, hp7]
    · intro p hp
      have hng : ¬ (p ≠ 0 ∧ p ≤ 7) := by omega
      simp [map_oracle_type_to_rust, h, hs, hng]
    · simp [map_oracle_type_to_rust, h, hs]
    · simp [map_oracle_type_to_rust, h, hs]

/-- C4 counterexample: the claim says a call with scale 0 and no precision
returns the narrow integer type i32; the mapper returns the wide integer
type i64 for an absent precision (`precision is None or precision > 10`). -/
theorem c4_counterexample_absent_precision :
    map_oracle_type_to_rust "NUMBER" none (some 0) = "i64"
    ∧ map_oracle_type_to_rust "NUMBER" none (some 0) ≠ "i32" := by
  exact ⟨by decide, by decide⟩

/-- C4 amended: for every numeric native type with scale 0, a present
precision of at most 10 maps to i32, and a precision greater than 10 or an
absent precision maps to i64. -/
theorem c4_amended_integer_widths (s : String) (h : pyUpper s = "NUMBER") :
    (∀ p : Int, p ≤ 10 → map_oracle_type_to_rust s (some p) (some 0) = "i32")
    ∧ (∀ p : Int, p > 10 → map_oracle_type_to_rust s (some p) (some 0) = "i64")
    ∧ map_oracle_type_to_rust s none (some 0) = "i64" := by
  refine ⟨?_, ?_, by simp [map_oracle_type_to_rust, h]⟩
  · intro p hp
    have hng : ¬ (p > 10) := by omega
    simp [map_oracle_type_to_rust, h, hng]
  · intro p hp
    simp [map_oracle_type_to_rust, h, hp]

/-- C4 witness: the amended widths at precision 10, 11 and absent. -/
theorem c4_witness :
    map_oracle_type_to_rust "NUMBER" (some 10) (some 0) = "i32"
    ∧ map_oracle_type_to_rust "NUMBER" (some 11) (some 0) = "i64"
    ∧ map_oracle_type_to_rust "NUMBER" none (some 0) = "i64" := by
  exact ⟨(c4_amended_integer_widths "NUMBER" rfl).1 10 (by decide),
    (c4_amended_integer_widths "NUMBER" rfl).2.1 11 (by decide),
    (c4_amended_integer_widths "NUMBER" rfl).2.2⟩

/-- C5: the type mapper is total and never fails — for every native type
string and any precision and scale it returns a non-empty target type
name, and the unrecognized native type XMLTYPE silently maps to the
fallback String. -/
theorem c5_mapper_total_nonempty_fallback :
    (∀ (oracle_type : String) (precision scale : Option Int),
      map_oracle_type_to_rust oracle_type precision scale ≠ "")
    ∧ (∀ precision scale : Option Int,
      map_oracle_type_to_rust "XMLTYPE" precision scale = "String") := by
  constructor
  · intro s p sc
    unfold map_oracle_type_to_rust
    split
    · rcases p with _ | v <;> rcases sc with _ | w <;> simp <;>
        (repeat' split) <;> decide
    · exact lookup_getD_ne_empty _
  · intro p sc
    rfl

/-- C6: a rendered column whose nullable flag equals "Y" gets the
optional-wrapped form `Option<T>` of its bare mapped type `T`, and a
column whose flag is anything else gets the bare mapped type. -/
theorem c6_nullable_wrapping (table_owner table_name : String) (columns : List Column)
    (c : Column) (hc : c ∈ columns) :
    (c.nullable = "Y" →
      ("    pub " ++ field_name c.column_name ++ ": Option<"
        ++ map_oracle_type_to_rust c.data_type none none ++ ">,")
        ∈ generateRustStructLines table_owner table_name columns)
    ∧ (c.nullable ≠ "Y" →
      ("    pub " ++ field_name c.column_name ++ ": "
        ++ map_oracle_type_to_rust c.data_type none none ++ ",")
        ∈ generateRustStructLines table_owner table_name columns) := by
  have hline := fieldDecl_mem table_owner table_name columns c hc
  constructor <;> intro hn
  · have he : fieldDecl c = "    pub " ++ field_name c.column_name ++ ": Option<"
        ++ map_oracle_type_to_rust c.data_type none none ++ ">," := by
      apply String.ext
      simp [fieldDecl, rust_field_type, hn]
    rwa [he] at hline
  · have he : fieldDecl c = "    pub " ++ field_name c.column_name ++ ": "
        ++ map_oracle_type_to_rust c.data_type none none ++ "," := by
      apply String.ext
      simp [fieldDecl, rust_field_type, hn]
    rwa [he] at hline

/-- C6 witness: a nullable VARCHAR2 column renders as `Option<String>`
and a non-nullable one as bare `String`. -/
theorem c6_witness :
    ("    pub note: Option<" ++ map_oracle_type_to_rust "VARCHAR2" none none ++ ">,")
      ∈ generateRustStructLines "APP" "T" [⟨"NOTE", "VARCHAR2", "Y"⟩, ⟨"ID", "VARCHAR2", "N"⟩]
    ∧ ("    pub id: " ++ map_oracle_type_to_rust "VARCHAR2" none none ++ ",")
      ∈ generateRustStructLines "APP" "T" [⟨"NOTE", "VARCHAR2", "Y"⟩, ⟨"ID", "VARCHAR2", "N"⟩] := by
  constructor
  · exact (c6_nullable_wrapping "APP" "T" _ ⟨"NOTE", "VARCHAR2", "Y"⟩ (by decide)).1 (by decide)
  · exact (c6_nullable_wrapping "APP" "T" _ ⟨"ID", "VARCHAR2", "N"⟩ (by decide)).2 (by decide)

/-- C7 counterexample: the claim says the rendered field names equal the
column names unmodified; for the single column ID the rendered field name
is the lower-cased "id", which differs from "ID". -/
theorem c7_counterexample_names_lowercased :
    generateRustStructLines "APP" "T" [⟨"ID", "VARCHAR2", "N"⟩] =
      ["// Table: APP.T",
       "#[derive(Debug, Clone, Serialize, Deserialize, RowValue)]",
       "pub struct T \x7b",
       "    pub id: String,",
       "\x7d"]
    ∧ field_name "ID" = "id" ∧ ("id" : String) ≠ "ID" := by
  exact ⟨by decide, by decide, by decide⟩

/-- C7 amended: the rendered block has exactly one field line per column
(four non-field lines: comment, derive, header, closing brace), and the
field lines are, in the column query's order, one per column carrying the
lower-cased column name (no re-sorting, no skipping, no duplication). -/
theorem c7_amended_field_count_and_order (table_owner table_name : String)
    (columns : List Column) :
    (generateRustStructLines table_owner table_name columns).length = columns.length + 4
    ∧ ((generateRustStructLines table_owner table_name columns).drop 3).dropLast
        = columns.map (fun c => "    pub " ++ field_name c.column_name ++ ": "
            ++ rust_field_type c.data_type c.nullable ++ ",") := by
  constructor
  · simp [generateRustStructLines]
  · simp [generateRustStructLines, List.dropLast_concat, fieldDecl]

/-- C8: a table row is returned by the scope query exactly when it is in
the catalog, its owner does not contain the substring ORACLE, and its
owner is not in the configured ignore-set (case-sensitive exact match) —
so a SYS-owned table never appears, however many tables SYS owns, and
every other table the catalog returns is included. -/
theorem c8_scope_excludes_ignored_owners (all_tables : List CatalogTable) (t : CatalogTable) :
    t ∈ fetch_tables all_tables ↔
      t ∈ all_tables
        ∧ containsSubL "ORACLE".toList t.owner.toList = false
        ∧ IGNORED_SCHEMAS.contains t.owner = false := by
  simp [fetch_tables, List.mem_filter, in_user_scope]

/-- The processing loop fails whenever the column fetch of a table in its
worklist fails: the raised error aborts the loop at the first failing
table and propagates. -/
theorem processTables_error_of_mem (cursor : Cursor) (e : String) :
    ∀ ts : List CatalogTable, ∀ t ∈ ts,
      fetch_columns cursor t.owner t.table_name = Except.error e →
      ∃ msg, processTables cursor ts = Except.error msg := by
  intro ts
  induction ts with
  | nil => intro t ht; cases ht
  | cons a rest ih =>
    intro t ht he
    rcases List.mem_cons.mp ht with rfl | hmem
    · exact ⟨e, by simp [processTables, he]⟩
    · cases hf : fetch_columns cursor a.owner a.table_name with
      | error e2 => exact ⟨e2, by simp [processTables, hf]⟩
      | ok cols =>
        obtain ⟨msg, hmsg⟩ := ih t hmem he
        exact ⟨msg, by simp [processTables, hf, hmsg]⟩

/-- C9: if the column fetch of any single in-scope table fails, the whole
generation run results in a propagated error — no artifact content is
produced, so every previously rendered block is discarded, because
`save_rust_structs` is applied to the accumulator only after every table
has been processed successfully. -/
theorem c9_column_fetch_failure_aborts_run (cursor : Cursor) (t : CatalogTable) (e : String)
    (ht : t ∈ fetch_tables cursor.all_tables)
    (he : fetch_columns cursor t.owner t.table_name = Except.error e) :
    ∃ msg, create_rust_structs cursor = Except.error msg := by
  obtain ⟨msg, hmsg⟩ := processTables_error_of_mem cursor e _ t ht he
  exact ⟨msg, by simp [create_rust_structs, hmsg]⟩

/-- A cursor whose column query raises on table T2 of two in-scope
tables (the first table's query succeeds). -/
def failingCursor : Cursor :=
  ⟨[⟨"APP", "T1"⟩, ⟨"APP", "T2"⟩],
   fun _ table_name =>
     if table_name = "T2" then Except.error "ORA-00942: table or view does not exist"
     else Except.ok [⟨"ID", "NUMBER", "N", some 10, some 0⟩]⟩

/-- C9 witness: on the failing cursor, T2 is in scope, its fetch fails,
and the run returns an error (no output artifact). -/
theorem c9_witness :
    (⟨"APP", "T2"⟩ : CatalogTable) ∈ fetch_tables failingCursor.all_tables
    ∧ ∃ msg, create_rust_structs failingCursor = Except.error msg := by
  exact ⟨by decide,
    c9_column_fetch_failure_aborts_run failingCursor ⟨"APP", "T2"⟩
      "ORA-00942: table or view does not exist" (by decide) rfl⟩

/-! Character-level facts used for the struct-name identifier proof. -/

theorem ascii_char_facts : ∀ n : Nat, n < 128 →
    ((Char.ofNat n).isAlpha = true →
      (Char.ofNat n).toLower.isAlpha = true ∧ (Char.ofNat n).toUpper.isAlpha = true
        ∧ Char.ofNat n ≠ '_')
    ∧ ((Char.ofNat n).isAlphanum = true →
      (Char.ofNat n).toLower.isAlphanum = true ∧ (Char.ofNat n).toUpper.isAlphanum = true)
    ∧ (((Char.ofNat n).isAlphanum || Char.ofNat n == '_') = true →
      ((Char.ofNat n).toLower.isAlphanum || (Char.ofNat n).toLower == '_') = true) := by
  decide

theorem isAlphanum_of_isAlpha (c : Char) (h : c.isAlpha = true) : c.isAlphanum = true := by
  simp [Char.isAlphanum, h]

theorem toNat_lt_of_charOk (c : Char) (h : (c.isAlphanum || c == '_') = true) :
    c.toNat < 128 := by
  rcases Bool.or_eq_true _ _ |>.mp h with ha | hu
  · simp only [Char.isAlphanum, Char.isAlpha, Char.isUpper, Char.isLower, Char.isDigit,
      Bool.or_eq_true, Bool.and_eq_true, decide_eq_true_eq] at ha
    have hc : c.toNat = c.val.toBitVec.toNat := rfl
    rcases ha with (⟨h1, h2⟩ | ⟨h1, h2⟩) | ⟨h1, h2⟩
    · rw [UInt32.le_def, BitVec.le_def] at h2
      have h2x : c.val.toBitVec.toNat ≤ 90 := h2
      omega
    · rw [UInt32.le_def, BitVec.le_def] at h2
      have h2x : c.val.toBitVec.toNat ≤ 122 := h2
      omega
    · rw [UInt32.le_def, BitVec.le_def] at h2
      have h2x : c.val.toBitVec.toNat ≤ 57 := h2
      omega
  · rw [beq_iff_eq] at hu
    subst hu
    decide

theorem char_facts (c : Char) (hb : c.toNat < 128) :
    (c.isAlpha = true →
      c.toLower.isAlpha = true ∧ c.toUpper.isAlpha = true ∧ c ≠ '_')
    ∧ (c.isAlphanum = true →
      c.toLower.isAlphanum = true ∧ c.toUpper.isAlphanum = true)
    ∧ ((c.isAlphanum || c == '_') = true →
      (c.toLower.isAlphanum || c.toLower == '_') = true) := by
  have h := ascii_char_facts c.toNat hb
  rwa [Char.ofNat_toNat] at h

theorem alpha_char_facts (c : Char) (h : c.isAlpha = true) :
    c.toLower.isAlpha = true ∧ c.toUpper.isAlpha = true ∧ c ≠ '_' :=
  (char_facts c (toNat_lt_of_charOk c (by simp [isAlphanum_of_isAlpha c h]))).1 h

theorem alphanum_char_facts (c : Char) (h : c.isAlphanum = true) :
    c.toLower.isAlphanum = true ∧ c.toUpper.isAlphanum = true :=
  (char_facts c (toNat_lt_of_charOk c (by simp [h]))).2.1 h

theorem charOk_toLower (c : Char) (h : (c.isAlphanum || c == '_') = true) :
    (c.toLower.isAlphanum || c.toLower == '_') = true :=
  (char_facts c (toNat_lt_of_charOk c h)).2.2 h

/-! Facts about the Python split embedding. -/

theorem splitUnderscore_ne_nil (l : List Char) : splitUnderscore l ≠ [] := by
  induction l with
  | nil => simp [splitUnderscore]
  | cons c cs ih =>
    unfold splitUnderscore
    cases h : splitUnderscore cs with
    | nil => simp
    | cons w ws =>
      dsimp only
      split <;> simp

theorem mem_splitUnderscore (l : List Char) :
    ∀ seg ∈ splitUnderscore l, ∀ c ∈ seg, c ∈ l ∧ c ≠ '_' := by
  induction l with
  | nil =>
    intro seg hseg c hc
    simp only [splitUnderscore, List.mem_singleton] at hseg
    subst hseg
    cases hc
  | cons a as ih =>
    intro seg hseg c hc
    rcases hsplit : splitUnderscore as with _ | ⟨w, ws⟩
    · exact absurd hsplit (splitUnderscore_ne_nil as)
    · unfold splitUnderscore at hseg
      rw [hsplit] at hseg
      dsimp only at hseg
      by_cases ha : a = '_'
      · rw [if_pos ha] at hseg
        rcases List.mem_cons.mp hseg with rfl | hseg2
        · cases hc
        · have hres := ih seg (hsplit ▸ hseg2) c hc
          exact ⟨List.mem_cons_of_mem _ hres.1, hres.2⟩
      · rw [if_neg ha] at hseg
        rcases List.mem_cons.mp hseg with rfl | hseg2
        · rcases List.mem_cons.mp hc with rfl | hcw
          · exact ⟨List.mem_cons_self _ _, ha⟩
          · have hw : w ∈ splitUnderscore as := by
              rw [hsplit]; exact List.mem_cons_self _ _
            have hres := ih w hw c hcw
            exact ⟨List.mem_cons_of_mem _ hres.1, hres.2⟩
        · have hmem : seg ∈ splitUnderscore as := by
            rw [hsplit]; exact List.mem_cons_of_mem _ hseg2
          have hres := ih seg hmem c hc
          exact ⟨List.mem_cons_of_mem _ hres.1, hres.2⟩

theorem splitUnderscore_head (a : Char) (l : List Char) (ha : a ≠ '_') :
    ∃ w ws, splitUnderscore l = w :: ws
      ∧ splitUnderscore (a :: l) = (a :: w) :: ws := by
  rcases h : splitUnderscore l with _ | ⟨w, ws⟩
  · exact absurd h (splitUnderscore_ne_nil l)
  · refine ⟨w, ws, rfl, ?_⟩
    unfold splitUnderscore
    rw [h]
    dsimp only
    rw [if_neg ha]

theorem mem_pyCapitalize (seg : List Char) (d : Char) (hd : d ∈ pyCapitalize seg) :
    ∃ e ∈ seg, d = e.toUpper ∨ d = e.toLower := by
  cases seg with
  | nil => cases hd
  | cons e es =>
    simp only [pyCapitalize, List.mem_cons] at hd
    rcases hd with rfl | hd
    · exact ⟨e, List.mem_cons_self _ _, Or.inl rfl⟩
    · obtain ⟨e2, he2, rfl⟩ := List.mem_map.mp hd
      exact ⟨e2, List.mem_cons_of_mem _ he2, Or.inr rfl⟩

/-- C10 counterexample: structName is derived from the table name alone,
so the two distinct tables APP.ORDERS and HR.ORDERS — both of which pass
the scope filter and so can occur in one enumeration — receive the same
structName, violating uniqueness; and the table name 2FAST derives the
structName "2fast", which is not a syntactically valid identifier (it
starts with a digit and Python's capitalize leaves a leading digit
unchanged). -/
theorem c10_counterexample_collision_and_invalid :
    fetch_tables [⟨"APP", "ORDERS"⟩, ⟨"HR", "ORDERS"⟩]
      = [⟨"APP", "ORDERS"⟩, ⟨"HR", "ORDERS"⟩]
    ∧ ((⟨"APP", "ORDERS"⟩ : CatalogTable) ≠ (⟨"HR", "ORDERS"⟩ : CatalogTable))
    ∧ struct_name (CatalogTable.table_name ⟨"APP", "ORDERS"⟩)
        = struct_name (CatalogTable.table_name ⟨"HR", "ORDERS"⟩)
    ∧ struct_name "2FAST" = "2fast"
    ∧ isValidRustIdent (struct_name "2FAST") = false := by
  exact ⟨by decide, by decide, rfl, by decide, by decide⟩

/-- C10 amended: for every table name that starts with an ASCII letter and
contains only ASCII letters, digits and underscores, the derived
structName is a syntactically valid identifier of the target language;
structNames are not guaranteed unique across tables, since the derivation
depends only on the table name. -/
theorem c10_amended_struct_name_valid (table_name : String)
    (h : goodTableName table_name = true) :
    isValidRustIdent (struct_name table_name) = true := by
  unfold goodTableName at h
  unfold struct_name
  rcases hl : table_name.toList with _ | ⟨c, cs⟩
  · rw [hl] at h
    exact absurd h (by simp)
  · rw [hl] at h
    dsimp only at h
    rw [Bool.and_eq_true] at h
    obtain ⟨hca, hall0⟩ := h
    have hall : ∀ d ∈ c :: cs, (d.isAlphanum || d == '_') = true := by
      intro d hd
      exact List.all_eq_true.mp hall0 d hd
    have hc'a : c.toLower.isAlpha = true := (alpha_char_facts c hca).1
    have hc'ne : c.toLower ≠ '_' := (alpha_char_facts c.toLower hc'a).2.2
    have hupper : c.toLower.toUpper.isAlpha = true := (alpha_char_facts c.toLower hc'a).2.1
    have hallL : ∀ d ∈ (c :: cs).map Char.toLower, (d.isAlphanum || d == '_') = true := by
      intro d hd
      obtain ⟨e, he, rfl⟩ := List.mem_map.mp hd
      exact charOk_toLower e (hall e he)
    rw [List.map_cons]
    obtain ⟨w, ws, hsplit, hsplit2⟩ := splitUnderscore_head c.toLower (cs.map Char.toLower) hc'ne
    rw [hsplit2, List.map_cons]
    simp only [pyCapitalize]
    rw [List.flatten_cons]
    unfold isValidRustIdent
    simp only [String.toList, data_mk]
    show ((c.toLower.toUpper.isAlpha || c.toLower.toUpper == '_')
      && (List.map Char.toLower w ++ (List.map pyCapitalize ws).flatten).all
           (fun d => d.isAlphanum || d == '_')) = true
    rw [Bool.and_eq_true]
    constructor
    · simp [hupper]
    · rw [List.all_eq_true]
      intro d hd
      have hvalid : d.isAlphanum = true := by
        rcases List.mem_append.mp hd with hdw | hdf
        · obtain ⟨e, he, rfl⟩ := List.mem_map.mp hdw
          have hseg : (c.toLower :: w) ∈ splitUnderscore ((c :: cs).map Char.toLower) := by
            rw [List.map_cons, hsplit2]
            exact List.mem_cons_self _ _
          have hmem := mem_splitUnderscore _ _ hseg e (List.mem_cons_of_mem _ he)
          have hae : e.isAlphanum = true := by
            rcases Bool.or_eq_true _ _ |>.mp (hallL e hmem.1) with h1 | h1
            · exact h1
            · exact absurd (beq_iff_eq.mp h1) hmem.2
          exact (alphanum_char_facts e hae).1
        · obtain ⟨seg2, hseg2mem, hdseg⟩ := List.mem_flatten.mp hdf
          obtain ⟨seg, hsegmem, rfl⟩ := List.mem_map.mp hseg2mem
          obtain ⟨e, he, hde⟩ := mem_pyCapitalize seg d hdseg
          have hsegfull : seg ∈ splitUnderscore ((c :: cs).map Char.toLower) := by
            rw [List.map_cons, hsplit2]
            exact List.mem_cons_of_mem _ hsegmem
          have hmem := mem_splitUnderscore _ _ hsegfull e he
          have hae : e.isAlphanum = true := by
            rcases Bool.or_eq_true _ _ |>.mp (hallL e hmem.1) with h1 | h1
            · exact h1
            · exact absurd (beq_iff_eq.mp h1) hmem.2
          rcases hde with rfl | rfl
          · exact (alphanum_char_facts e hae).2
          · exact (alphanum_char_facts e hae).1
      simp [hvalid]

/-- C10 witness: USER_ACCOUNTS is a well-formed table name and its derived
structName UserAccounts is a valid identifier. -/
theorem c10_witness :
    goodTableName "USER_ACCOUNTS" = true
    ∧ isValidRustIdent (struct_name "USER_ACCOUNTS") = true := by
  exact ⟨by decide, c10_amended_struct_name_valid "USER_ACCOUNTS" (by decide)⟩

end OraReflector
